import Mathlib

/-!
A shallow embedding of the Expense-Tracker MCP server (`src/main.py`):
a single `expenses` table over SQLite, with three tools
(`add_expense`, `list_expenses`, `summarize`) and a `categories`
resource, plus the idempotent `init_db` initialization.

SQL semantics are embedded directly: `WHERE date BETWEEN ? AND ?` is
inclusive lexical string comparison, `ORDER BY date DESC, id DESC` and
`ORDER BY total_amount DESC` are modelled by sorting with the
corresponding relations, `GROUP BY category` by grouping on distinct
categories, and `AUTOINCREMENT` ids by a monotone counter carried by the
store.  Each tool's `try/except` wrapper is modelled by a `DbOutcome`
parameter saying whether the storage layer raises an exception (and
with which message) during the call.
-/

namespace ExpenseTracker

/-- One row of the `expenses` table (`id, date, amount, category,
subcategory, note`), as created by `init_db` in `src/main.py`. -/
structure Expense where
  id : Nat
  date : String
  amount : ℚ
  category : String
  subcategory : String
  note : String
deriving Repr, DecidableEq

/-- The state of the `expenses` table: rows in insertion order together
with the `AUTOINCREMENT` counter (the largest id ever assigned;
`0` when no row was ever inserted). -/
structure Store where
  rows : List Expense
  seq : Nat
deriving Repr, DecidableEq

/-- A freshly initialized, empty store. -/
def emptyStore : Store := ⟨[], 0⟩

/-- Python's `x or ""` defaulting used by `add_expense` for the optional
`subcategory` and `note` arguments: `None` and `""` are falsy, anything
else is returned unchanged. -/
def pyOrEmpty : Option String → String
  | none => ""
  | some s => if s = "" then "" else s

/-- Whether the storage layer works during a call, or raises an
exception whose textual description is `msg` (caught by the `except`
clause of each tool in `src/main.py`). -/
inductive DbOutcome where
  | ok
  | fail (msg : String)
deriving Repr, DecidableEq

/-- Return payload of `add_expense`: either
`{"status": "success", "id": ..., "message": ...}` or
`{"status": "error", "message": ...}`. -/
inductive AddResult where
  | success (id : Nat) (message : String)
  | error (message : String)
deriving Repr, DecidableEq

/-- `add_expense` from `src/main.py`: inserts one row with the next
`AUTOINCREMENT` id, normalizing absent optional fields with `or ""`,
and commits; any storage exception is caught and returned as an error
payload, leaving the store unchanged (the transaction never commits). -/
def add_expense (o : DbOutcome) (s : Store) (date : String) (amount : ℚ)
    (category : String) (subcategory note : Option String) :
    AddResult × Store :=
  match o with
  | .fail m => (.error m, s)
  | .ok =>
      let newId := s.seq + 1
      let e : Expense :=
        ⟨newId, date, amount, category, pyOrEmpty subcategory, pyOrEmpty note⟩
      (.success newId "Expense added successfully", ⟨s.rows ++ [e], newId⟩)

/-- SQLite's `BINARY` collation on `TEXT` values: strict lexicographic
(byte-wise) comparison, embedded as the lexicographic order on the
strings' character lists. -/
def dateLt (a b : String) : Prop :=
  a.data < b.data

/-- Non-strict lexical comparison of `TEXT` values. -/
def dateLe (a b : String) : Prop :=
  a.data ≤ b.data

instance : DecidableRel dateLt := fun a b =>
  inferInstanceAs (Decidable (a.data < b.data))

instance : DecidableRel dateLe := fun a b =>
  inferInstanceAs (Decidable (a.data ≤ b.data))

/-- `WHERE date BETWEEN ? AND ?`: inclusive lexical (string) comparison
of `date` against the bounds. -/
def inRange (start_date end_date : String) (e : Expense) : Bool :=
  decide (dateLe start_date e.date) && decide (dateLe e.date end_date)

/-- `ORDER BY date DESC, id DESC`: `a` sorts no later than `b`. -/
def listOrder (a b : Expense) : Prop :=
  dateLt b.date a.date ∨ (a.date = b.date ∧ b.id ≤ a.id)

instance : DecidableRel listOrder := fun a b => by
  unfold listOrder; exact inferInstance

/-- Return payload of `list_expenses`: a list of full rows, or an error
payload. -/
inductive ListResult where
  | rows (l : List Expense)
  | error (message : String)
deriving Repr, DecidableEq

/-- The row list produced by `list_expenses`'s query: rows whose `date`
is lexically between the bounds, ordered by `date DESC, id DESC`. -/
def list_rows (s : Store) (start_date end_date : String) : List Expense :=
  List.insertionSort listOrder (s.rows.filter (inRange start_date end_date))

/-- `list_expenses` from `src/main.py`: the `BETWEEN`-filtered, ordered
rows, or an error payload when the storage layer raises. -/
def list_expenses (o : DbOutcome) (s : Store) (start_date end_date : String) :
    ListResult :=
  match o with
  | .fail m => .error m
  | .ok => .rows (list_rows s start_date end_date)

/-- One group of `summarize`'s result:
`{category, total_amount, count}`. -/
structure SummaryRow where
  category : String
  total_amount : ℚ
  count : Nat
deriving Repr, DecidableEq

/-- The `GROUP BY category` aggregate for one category `c` over the
filtered rows `l`: `SUM(amount)` and `COUNT(*)` of the rows of that
category. -/
def groupRow (l : List Expense) (c : String) : SummaryRow :=
  let g := l.filter (fun e => e.category = c)
  ⟨c, (g.map Expense.amount).sum, g.length⟩

/-- `GROUP BY category`: one aggregate row per distinct category
occurring in `l`. -/
def summaryRows (l : List Expense) : List SummaryRow :=
  ((l.map Expense.category).dedup).map (groupRow l)

/-- `ORDER BY total_amount DESC`: `a` sorts no later than `b`. -/
def sumOrder (a b : SummaryRow) : Prop :=
  b.total_amount ≤ a.total_amount

instance : DecidableRel sumOrder := fun a b => by
  unfold sumOrder; exact inferInstance

/-- Return payload of `summarize`: a list of group rows, or an error
payload. -/
inductive SummarizeResult where
  | rows (l : List SummaryRow)
  | error (message : String)
deriving Repr, DecidableEq

/-- The rows filtered as in `summarize`'s query: the inclusive lexical
date range, and — only when the optional `category` argument is truthy
(present and non-empty) — the extra `AND category = ?` clause. -/
def summarize_filtered (s : Store) (start_date end_date : String)
    (category : Option String) : List Expense :=
  let base := s.rows.filter (inRange start_date end_date)
  match category with
  | some c => if c = "" then base else base.filter (fun e => e.category = c)
  | none => base

/-- The group list produced by `summarize`'s query: one
`{category, total_amount, count}` per distinct category among the
filtered rows, ordered by `total_amount DESC`. -/
def summarize_rows (s : Store) (start_date end_date : String)
    (category : Option String) : List SummaryRow :=
  List.insertionSort sumOrder
    (summaryRows (summarize_filtered s start_date end_date category))

/-- `summarize` from `src/main.py`: the grouped, ordered aggregates, or
an error payload when the storage layer raises. -/
def summarize (o : DbOutcome) (s : Store) (start_date end_date : String)
    (category : Option String) : SummarizeResult :=
  match o with
  | .fail m => .error m
  | .ok => .rows (summarize_rows s start_date end_date category)

/-- The SQLite database file as `init_db` sees it: whether the
`expenses` table exists, its contents, and whether WAL journaling was
selected. -/
structure DbFile where
  tableExists : Bool
  rows : List Expense
  seq : Nat
  walMode : Bool
deriving Repr, DecidableEq

/-- `init_db` from `src/main.py`: `PRAGMA journal_mode=WAL` followed by
`CREATE TABLE IF NOT EXISTS expenses (...)` — the table (and its rows
and id counter) is left untouched if it already exists, and created
empty otherwise. -/
def init_db (f : DbFile) : DbFile :=
  { tableExists := true
    rows := if f.tableExists then f.rows else []
    seq := if f.tableExists then f.seq else 0
    walMode := true }

instance : IsTotal Expense listOrder where
  total a b := by
    rcases lt_trichotomy a.date.data b.date.data with h | h | h
    · exact Or.inr (Or.inl h)
    · have hd : a.date = b.date := String.ext h
      rcases Nat.le_total a.id b.id with hid | hid
      · exact Or.inr (Or.inr ⟨hd.symm, hid⟩)
      · exact Or.inl (Or.inr ⟨hd, hid⟩)
    · exact Or.inl (Or.inl h)

instance : IsTrans Expense listOrder where
  trans a b c hab hbc := by
    rcases hab with hab | ⟨hdab, hiab⟩ <;> rcases hbc with hbc | ⟨hdbc, hibc⟩
    · exact Or.inl (lt_trans hbc hab)
    · rw [hdbc] at hab
      exact Or.inl hab
    · rw [← hdab] at hbc
      exact Or.inl hbc
    · exact Or.inr ⟨hdab.trans hdbc, Nat.le_trans hibc hiab⟩

instance : IsTotal SummaryRow sumOrder :=
  ⟨fun a b => le_total b.total_amount a.total_amount⟩

instance : IsTrans SummaryRow sumOrder :=
  ⟨fun _ _ _ hab hbc => le_trans hbc hab⟩

/-- The invariant `add_expense` maintains on the store: every row's id
is positive and no larger than the `AUTOINCREMENT` counter, and ids
are pairwise distinct. -/
def Store.wf (s : Store) : Prop :=
  (∀ e ∈ s.rows, 0 < e.id ∧ e.id ≤ s.seq) ∧ (s.rows.map Expense.id).Nodup

/-- A store holding the single expense of the spec's round-trip
property: `{date:"2024-01-05", amount:12.5, category:"food"}` inserted
into an empty store (12.5 = 25/2). -/
def storeA : Store :=
  (add_expense .ok emptyStore "2024-01-05" (25/2) "food" none none).2

/-- A store holding two same-day expenses, inserted one after the
other. -/
def storeB : Store :=
  (add_expense .ok
    (add_expense .ok emptyStore "2024-02-01" 3 "food" none none).2
    "2024-02-01" 4 "transport" none none).2

/-- The built-in fallback category list of the `categories` resource in
`src/main.py`. -/
def FALLBACK_CATEGORIES : List String :=
  ["food", "transport", "housing", "utilities", "health", "education",
   "shopping", "entertainment", "travel", "business", "misc"]

/-- Lower-case hexadecimal digit, as used by `json.dumps` in `\uXXXX`
escapes. -/
def hexDigit (n : Nat) : Char :=
  if n < 10 then Char.ofNat (48 + n) else Char.ofNat (87 + n)

/-- `json.dumps` escaping of one character inside a JSON string:
quote, backslash and the named control characters get two-character
escapes, other control characters a `\u00XX` escape, and everything
else passes through (`ensure_ascii` only affects non-ASCII text, which
never occurs in the strings this program dumps). -/
def jsonEscapeChar (c : Char) : String :=
  if c = '"' then "\\\"" else
  if c = '\\' then "\\\\" else
  if c = '\n' then "\\n" else
  if c = '\r' then "\\r" else
  if c = '\t' then "\\t" else
  if c = Char.ofNat 8 then "\\b" else
  if c = Char.ofNat 12 then "\\f" else
  if c.toNat < 32 then
    "\\u00" ++ String.singleton (hexDigit (c.toNat / 16)) ++
      String.singleton (hexDigit (c.toNat % 16))
  else String.singleton c

/-- A JSON string literal as `json.dumps` renders it. -/
def jsonQuote (s : String) : String :=
  "\"" ++ String.join (s.data.map jsonEscapeChar) ++ "\""

/-- `json.dumps({"categories": cats}, indent=2)`: the two-space
indented rendering of the one-key object holding a string array. -/
def dumpsCategoriesIndent2 (cats : List String) : String :=
  match cats with
  | [] => "\x7b\n  \"categories\": []\n\x7d"
  | _ =>
      "\x7b\n  \"categories\": [\n" ++
        String.intercalate ",\n" (cats.map (fun c => "    " ++ jsonQuote c)) ++
        "\n  ]\n\x7d"

/-- `json.dumps({"error": m})`: the compact rendering of the one-key
error object returned when reading the categories file raises. -/
def jsonErrorObj (m : String) : String :=
  "\x7b\"error\": " ++ jsonQuote m ++ "\x7d"

/-- The state of the `categories.json` configuration file next to the
deployment: absent, present with some content, or present but
unreadable (reading raises an exception with message `msg`). -/
inductive FileState where
  | absent
  | present (content : String)
  | unreadable (msg : String)
deriving Repr, DecidableEq

/-- The `categories` resource from `src/main.py`: if the configuration
file exists its content is returned verbatim (no parsing or
validation); if it is absent the built-in list is dumped as indented
JSON; if reading raises, a JSON error object is returned. -/
def categories : FileState → String
  | .present c => c
  | .unreadable m => jsonErrorObj m
  | .absent => dumpsCategoriesIndent2 FALLBACK_CATEGORIES

/-- C10: calling `summarize` with `category` explicitly set to the
empty string behaves exactly as if no category filter had been
supplied — the empty string is falsy in Python, so the
`AND category = ?` clause is not added, and records whose stored
category is the empty string are included along with all others. -/
theorem summarize_empty_string_category_is_no_filter (o : DbOutcome)
    (s : Store) (sd ed : String) :
    summarize o s sd ed (some "") = summarize o s sd ed none ∧
    summarize_filtered s sd ed (some "") = s.rows.filter (inRange sd ed) :=
  ⟨rfl, rfl⟩

/-- C8: when no configuration file exists, the `categories` resource
returns exactly the eleven built-in category names, rendered as a
two-space-indented JSON object under the key `categories`. -/
theorem categories_absent_gives_builtin_eleven :
    categories .absent =
      "\x7b\n  \"categories\": [\n    \"food\",\n    \"transport\",\n    \"housing\",\n    \"utilities\",\n    \"health\",\n    \"education\",\n    \"shopping\",\n    \"entertainment\",\n    \"travel\",\n    \"business\",\n    \"misc\"\n  ]\n\x7d" ∧
    FALLBACK_CATEGORIES =
      ["food", "transport", "housing", "utilities", "health", "education",
       "shopping", "entertainment", "travel", "business", "misc"] ∧
    FALLBACK_CATEGORIES.length = 11 := by
  refine ⟨?_, rfl, rfl⟩
  rfl

/-- C9 counterexample: with a present but malformed configuration file
(content `not json`, not a JSON object at all), the resource returns
the malformed content verbatim, not the built-in fallback — refuting
the claim that a malformed file falls back to the built-in list. -/
theorem categories_malformed_not_fallback_cex :
    categories (.present "not json") = "not json" ∧
    categories (.present "not json") ≠ categories .absent :=
  ⟨rfl, by decide⟩

/-- C9 amended: if the configuration file is present its content is
returned verbatim, with no JSON validation whatsoever (malformed
content included); the built-in fallback is used only when the file is
absent. -/
theorem categories_present_returned_verbatim (content : String) :
    categories (.present content) = content ∧
    categories .absent = dumpsCategoriesIndent2 FALLBACK_CATEGORIES :=
  ⟨rfl, rfl⟩

/-- C5: when the storage layer fails with textual description `m`,
each of the three tools returns a structured error payload whose
message is exactly `m` (so the description is preserved, and the
message is non-empty whenever `m` is), never an unhandled fault; a
failed `add_expense` leaves the store unchanged. -/
theorem storage_failure_error_payload (m : String) (s : Store)
    (d : String) (a : ℚ) (c : String) (sub nt : Option String)
    (sd ed : String) (copt : Option String) :
    add_expense (.fail m) s d a c sub nt = (.error m, s) ∧
    list_expenses (.fail m) s sd ed = .error m ∧
    summarize (.fail m) s sd ed copt = .error m ∧
    (m ≠ "" → ∀ msg, list_expenses (.fail m) s sd ed = .error msg →
      msg ≠ "") := by
  refine ⟨rfl, rfl, rfl, ?_⟩
  intro hm msg hmsg
  have h2 : ListResult.error m = ListResult.error msg := hmsg
  injection h2 with h3
  exact h3 ▸ hm

/-- C5 witness: a concrete failing call, with a non-empty message. -/
theorem storage_failure_error_payload_witness :
    add_expense (.fail "disk I/O error") emptyStore "2024-01-05" (25/2)
      "food" none none = (.error "disk I/O error", emptyStore) ∧
    ("disk I/O error" : String) ≠ "" :=
  have h := storage_failure_error_payload "disk I/O error" emptyStore
    "2024-01-05" (25/2) "food" none none "2024-01-01" "2024-01-31" none
  ⟨h.1, h.2.2.2 (by decide) "disk I/O error" h.2.1⟩

/-- C7: `init_db` is idempotent — any number of repeat calls equals a
single call, after any call the `expenses` table exists, and
re-initializing an already-initialized database alters neither its
rows nor its id counter (and never errors: `init_db` is total). -/
theorem init_db_idempotent (f : DbFile) (n : Nat) :
    init_db^[n + 1] f = init_db f ∧
    (init_db f).tableExists = true ∧
    (f.tableExists = true →
      (init_db f).rows = f.rows ∧ (init_db f).seq = f.seq) := by
  have hstep : init_db (init_db f) = init_db f := by
    simp [init_db]
  refine ⟨?_, rfl, ?_⟩
  · induction n with
    | zero => rfl
    | succ k ih =>
        rw [Function.iterate_succ_apply', ih, hstep]
  · intro h
    simp [init_db, h]

/-- C7 witness: three initializations of a concrete one-row database
equal one, and its row and counter survive re-initialization. -/
theorem init_db_idempotent_witness :
    init_db^[3] (⟨true, [⟨1, "2024-01-05", 3, "food", "", ""⟩], 1, false⟩ : DbFile) =
      init_db ⟨true, [⟨1, "2024-01-05", 3, "food", "", ""⟩], 1, false⟩ ∧
    (init_db ⟨true, [⟨1, "2024-01-05", 3, "food", "", ""⟩], 1, false⟩).rows =
      [⟨1, "2024-01-05", 3, "food", "", ""⟩] :=
  have h := init_db_idempotent
    ⟨true, [⟨1, "2024-01-05", 3, "food", "", ""⟩], 1, false⟩ 2
  ⟨h.1, (h.2.2 rfl).1⟩

/-- The rows returned by `list_expenses` are exactly the stored rows
whose date lies lexically in the inclusive range. -/
theorem mem_list_rows {s : Store} {sd ed : String} {e : Expense} :
    e ∈ list_rows s sd ed ↔
      e ∈ s.rows ∧ dateLe sd e.date ∧ dateLe e.date ed := by
  rw [list_rows, List.mem_insertionSort, List.mem_filter, inRange]
  simp [Bool.and_eq_true, decide_eq_true_iff, and_assoc]

/-- C2: `list_expenses` returns exactly the records whose `date` is
lexically between `start_date` and `end_date` inclusive (plain string
comparison), and a range containing no records yields the empty
sequence rather than an error. -/
theorem list_expenses_selects_lexical_range (s : Store) (sd ed : String) :
    list_expenses .ok s sd ed = .rows (list_rows s sd ed) ∧
    (∀ e, e ∈ list_rows s sd ed ↔
      e ∈ s.rows ∧ dateLe sd e.date ∧ dateLe e.date ed) ∧
    ((∀ e ∈ s.rows, ¬(dateLe sd e.date ∧ dateLe e.date ed)) →
      list_rows s sd ed = []) := by
  refine ⟨rfl, fun e => mem_list_rows, ?_⟩
  intro h
  rw [list_rows]
  have hf : s.rows.filter (inRange sd ed) = [] := by
    rw [List.filter_eq_nil_iff]
    intro e he
    simp only [inRange, Bool.and_eq_true, decide_eq_true_iff]
    exact fun hc => h e he ⟨hc.1, hc.2⟩
  rw [hf]
  rfl

/-- C2 witness: the one-row store `storeA` yields nothing for a 2025
range, and its row is found by a range containing its date. -/
theorem list_expenses_selects_lexical_range_witness :
    list_rows storeA "2025-01-01" "2025-12-31" = [] ∧
    (⟨1, "2024-01-05", 25/2, "food", "", ""⟩ : Expense) ∈
      list_rows storeA "2024-01-01" "2024-01-31" :=
  have h := list_expenses_selects_lexical_range storeA "2025-01-01" "2025-12-31"
  have h2 := list_expenses_selects_lexical_range storeA "2024-01-01" "2024-01-31"
  ⟨h.2.2 (by with_unfolding_all decide),
   (h2.2.1 _).mpr (by with_unfolding_all decide)⟩

/-- C1: the concrete insert round-trip of the spec — inserting
`{date:"2024-01-05", amount:12.5, category:"food"}` (12.5 = 25/2) into
an empty store returns id 1, and listing `["2024-01-01","2024-01-31"]`
returns exactly that one record with empty `subcategory` and `note` —
and, in general, absent optional fields are stored as empty strings
and every inserted row is retrievable by any range lexically
containing its date. -/
theorem add_expense_round_trip :
    (add_expense .ok emptyStore "2024-01-05" (25/2) "food" none none =
      (.success 1 "Expense added successfully", storeA) ∧
     list_expenses .ok storeA "2024-01-01" "2024-01-31" =
       .rows [⟨1, "2024-01-05", 25/2, "food", "", ""⟩]) ∧
    (∀ (s : Store) (d : String) (a : ℚ) (c : String),
      (add_expense .ok s d a c none none).2.rows =
        s.rows ++ [⟨s.seq + 1, d, a, c, "", ""⟩]) ∧
    (∀ (s : Store) (d : String) (a : ℚ) (c : String)
       (sub nt : Option String) (sd ed : String),
      dateLe sd d → dateLe d ed →
      (⟨s.seq + 1, d, a, c, pyOrEmpty sub, pyOrEmpty nt⟩ : Expense) ∈
        list_rows (add_expense .ok s d a c sub nt).2 sd ed) := by
  refine ⟨⟨rfl, by with_unfolding_all decide⟩, fun s d a c => rfl, ?_⟩
  intro s d a c sub nt sd ed h1 h2
  refine mem_list_rows.mpr ⟨?_, h1, h2⟩
  show _ ∈ s.rows ++ [(⟨s.seq + 1, d, a, c, pyOrEmpty sub, pyOrEmpty nt⟩ : Expense)]
  exact List.mem_append_right _ (List.mem_singleton_self _)

/-- C1 witness: a concrete insert with a `subcategory` supplied and
`note` absent is retrieved by a containing range. -/
theorem add_expense_round_trip_witness :
    dateLe "2024-03-01" "2024-03-07" ∧ dateLe "2024-03-07" "2024-03-31" ∧
    (⟨1, "2024-03-07", 3, "misc", "gift", ""⟩ : Expense) ∈
      list_rows (add_expense .ok emptyStore "2024-03-07" 3 "misc"
        (some "gift") none).2 "2024-03-01" "2024-03-31" :=
  ⟨by decide, by decide,
   add_expense_round_trip.2.2 emptyStore "2024-03-07" 3 "misc"
     (some "gift") none "2024-03-01" "2024-03-31" (by decide) (by decide)⟩

/-- C3: the rows returned by `list_expenses` are sorted by `date`
descending with `id` descending as tie-break; when the stored ids are
pairwise distinct (as `add_expense` guarantees), two returned records
with equal date appear in strictly descending id order. -/
theorem list_expenses_ordering (s : Store) (sd ed : String) :
    (list_rows s sd ed).Sorted listOrder ∧
    ((s.rows.map Expense.id).Nodup →
      (list_rows s sd ed).Pairwise
        (fun a b => a.date = b.date → b.id < a.id)) := by
  refine ⟨List.sorted_insertionSort listOrder _, ?_⟩
  intro hnd
  have hperm : (list_rows s sd ed).Perm (s.rows.filter (inRange sd ed)) :=
    List.perm_insertionSort listOrder _
  have hnd2 : ((s.rows.filter (inRange sd ed)).map Expense.id).Nodup :=
    hnd.sublist ((List.filter_sublist s.rows).map Expense.id)
  have hnd3 : ((list_rows s sd ed).map Expense.id).Nodup :=
    (hperm.map Expense.id).nodup_iff.mpr hnd2
  have hpw : (list_rows s sd ed).Pairwise (fun a b => a.id ≠ b.id) :=
    List.pairwise_map.mp hnd3
  have hs : (list_rows s sd ed).Pairwise listOrder :=
    List.sorted_insertionSort listOrder _
  refine List.Pairwise.imp₂ ?_ hs hpw
  intro a b ho hne hdate
  rcases ho with hlt | ⟨_, hle⟩
  · rw [hdate] at hlt
    exact absurd hlt (lt_irrefl _)
  · exact Nat.lt_of_le_of_ne hle (Ne.symm hne)

/-- C3 witness: two same-day inserts into an empty store come back in
descending id order. -/
theorem list_expenses_ordering_witness :
    (storeB.rows.map Expense.id).Nodup ∧
    (list_rows storeB "2024-02-01" "2024-02-28").Pairwise
      (fun a b => a.date = b.date → b.id < a.id) :=
  ⟨by with_unfolding_all decide,
   (list_expenses_ordering storeB "2024-02-01" "2024-02-28").2
     (by with_unfolding_all decide)⟩

/-- C4: `summarize` returns one `{category, total_amount, count}` row
per distinct category among the records in the inclusive lexical date
range (restricted to the exact category when a non-empty filter is
supplied), where `total_amount` sums and `count` counts that
category's records, ordered by `total_amount` descending; a filter
matching no records yields the empty sequence rather than an error. -/
theorem summarize_groups_spec (s : Store) (sd ed : String)
    (copt : Option String) :
    summarize .ok s sd ed copt = .rows (summarize_rows s sd ed copt) ∧
    (∀ e, e ∈ summarize_filtered s sd ed copt ↔
      e ∈ s.rows ∧ dateLe sd e.date ∧ dateLe e.date ed ∧
      (∀ c, copt = some c → c ≠ "" → e.category = c)) ∧
    ((summarize_rows s sd ed copt).map SummaryRow.category).Nodup ∧
    (∀ c, c ∈ (summarize_rows s sd ed copt).map SummaryRow.category ↔
      c ∈ (summarize_filtered s sd ed copt).map Expense.category) ∧
    (∀ r ∈ summarize_rows s sd ed copt,
      r.total_amount = (((summarize_filtered s sd ed copt).filter
          (fun e => e.category = r.category)).map Expense.amount).sum ∧
      r.count = ((summarize_filtered s sd ed copt).filter
          (fun e => e.category = r.category)).length) ∧
    (summarize_rows s sd ed copt).Sorted sumOrder ∧
    (summarize_filtered s sd ed copt = [] →
      summarize_rows s sd ed copt = []) := by
  have hperm : (summarize_rows s sd ed copt).Perm
      (summaryRows (summarize_filtered s sd ed copt)) :=
    List.perm_insertionSort _ _
  have hmapcat : (summaryRows (summarize_filtered s sd ed copt)).map
      SummaryRow.category =
      ((summarize_filtered s sd ed copt).map Expense.category).dedup := by
    rw [summaryRows, List.map_map]
    have hcomp : SummaryRow.category ∘
        groupRow (summarize_filtered s sd ed copt) = id := funext fun c => rfl
    rw [hcomp, List.map_id]
  refine ⟨rfl, ?_, ?_, ?_, ?_, List.sorted_insertionSort _ _, ?_⟩
  · intro e
    rcases copt with _ | c
    · simp [summarize_filtered, List.mem_filter, inRange, and_assoc]
    · by_cases hc : c = ""
      · subst hc
        simp [summarize_filtered, List.mem_filter, inRange, and_assoc]
      · simp [summarize_filtered, hc, List.mem_filter, inRange, and_assoc]
        tauto
  · exact (hperm.map SummaryRow.category).nodup_iff.mpr
      (hmapcat ▸ List.nodup_dedup _)
  · intro c
    rw [(hperm.map SummaryRow.category).mem_iff, hmapcat, List.mem_dedup]
  · intro r hr
    obtain ⟨c, _, rfl⟩ := List.mem_map.mp (hperm.mem_iff.mp hr)
    exact ⟨rfl, rfl⟩
  · intro h
    rw [summarize_rows, h]
    rfl

/-- C4 witness: summarizing `storeB` over its month groups the two
categories, and filtering by a category absent from the range yields
the empty sequence. -/
theorem summarize_groups_spec_witness :
    summarize_filtered storeB "2024-02-01" "2024-02-28" (some "nope") = [] ∧
    summarize_rows storeB "2024-02-01" "2024-02-28" (some "nope") = [] :=
  have hF : summarize_filtered storeB "2024-02-01" "2024-02-28"
      (some "nope") = [] := by with_unfolding_all decide
  ⟨hF, (summarize_groups_spec storeB "2024-02-01" "2024-02-28"
    (some "nope")).2.2.2.2.2.2 hF⟩

/-- C6: a successful `add_expense` on a well-formed store returns the
id `seq + 1`, strictly greater than every existing row's id; it
appends exactly one row carrying that id, keeps all ids pairwise
distinct, preserves the invariant, and leaves every pre-existing
record in place unchanged (no operation updates or deletes rows —
`list_expenses` and `summarize` do not modify the store at all). -/
theorem add_expense_id_monotone_unique (s : Store) (d : String) (a : ℚ)
    (c : String) (sub nt : Option String) (hwf : Store.wf s) :
    (add_expense .ok s d a c sub nt).1 =
      .success (s.seq + 1) "Expense added successfully" ∧
    (add_expense .ok s d a c sub nt).2.rows =
      s.rows ++ [⟨s.seq + 1, d, a, c, pyOrEmpty sub, pyOrEmpty nt⟩] ∧
    (∀ e ∈ s.rows, e.id < s.seq + 1) ∧
    Store.wf (add_expense .ok s d a c sub nt).2 ∧
    (∀ e ∈ s.rows, e ∈ (add_expense .ok s d a c sub nt).2.rows) := by
  refine ⟨rfl, rfl, ?_, ⟨?_, ?_⟩, ?_⟩
  · intro e he
    exact Nat.lt_succ_of_le (hwf.1 e he).2
  · intro e he
    show 0 < e.id ∧ e.id ≤ s.seq + 1
    rcases List.mem_append.mp he with he | he
    · exact ⟨(hwf.1 e he).1, Nat.le_succ_of_le (hwf.1 e he).2⟩
    · rw [List.mem_singleton.mp he]
      exact ⟨Nat.succ_pos _, Nat.le_refl _⟩
  · show ((s.rows ++
      [(⟨s.seq + 1, d, a, c, pyOrEmpty sub, pyOrEmpty nt⟩ : Expense)]).map
        Expense.id).Nodup
    rw [List.map_append]
    refine hwf.2.append (List.nodup_singleton _) ?_
    intro x hx hx2
    obtain ⟨e, he, rfl⟩ := List.mem_map.mp hx
    have h1 : e.id ≤ s.seq := (hwf.1 e he).2
    have h2 : e.id = s.seq + 1 := by simpa using hx2
    omega
  · intro e he
    exact List.mem_append_left _ he

/-- C6 witness: inserting into the (well-formed) empty store returns
id 1. -/
theorem add_expense_id_monotone_unique_witness :
    Store.wf emptyStore ∧
    (add_expense .ok emptyStore "2024-01-05" (25/2) "food" none none).1 =
      .success 1 "Expense added successfully" :=
  have hwf : Store.wf emptyStore := ⟨by simp [emptyStore], by simp [emptyStore]⟩
  ⟨hwf, (add_expense_id_monotone_unique emptyStore "2024-01-05" (25/2)
    "food" none none hwf).1⟩

end ExpenseTracker
